import Mathlib

/-!
# Billing/inventory settlement engine of invoice-flow

Shallow embedding of the bill API route handlers (`GET/PUT/PATCH/DELETE` of
`/api/bills/[id]` and `GET/POST` of `/api/bills`) and of the zod input schema
`extendedBillSchema` from `lib/schemas.ts`.

Modelling conventions:
* Decimal columns (stored as strings in the database and converted with
  `parseFloat`/`toString` in the route code) are modelled as exact rationals
  `ℚ`.  Wall-clock timestamp columns (`createdAt`/`updatedAt`) are omitted.
* The database is a record of four tables, each a list of rows in insertion
  order.  `db.select().where(eq(col, v)).limit(1)` is `List.find?`,
  `db.update().where(...)` maps over the table, `db.delete().where(...)`
  filters the table.
* Each route handler becomes a function from the database and the request
  data to a result together with the post-state of the database.  The
  successful-auth path is modelled; the session lookup itself is an external
  collaborator.
-/

namespace InvoiceFlow

/-- An inventory lot row (table `inventory`): total received `quantity` and
unreserved `availableQuantity`.  Only the columns the settlement engine
touches are modelled. -/
structure Lot where
  id : String
  quantity : ℚ
  availableQuantity : ℚ
deriving DecidableEq

/-- Bill payment status, the pg enum `('due', 'paid')`. -/
inductive Status where
  | due
  | paid
deriving DecidableEq

/-- A bill header row (table `bills`). -/
structure Bill where
  id : String
  userId : String
  clientId : String
  billNumber : String
  invoiceNumber : String
  billDate : String
  subtotal : ℚ
  taxRate : ℚ
  tax : ℚ
  extraChargesTotal : ℚ
  total : ℚ
  status : Status
  notes : Option String
deriving DecidableEq

/-- A bill line row (table `billItems`). -/
structure BillItem where
  billId : String
  inventoryId : String
  quantity : ℚ
  sellingPrice : ℚ
  total : ℚ
deriving DecidableEq

/-- An extra charge row (table `billExtraCharges`). -/
structure BillExtraCharge where
  billId : String
  name : String
  amount : ℚ
deriving DecidableEq

/-- The relational state the settlement engine reads and writes. -/
structure DB where
  inventory : List Lot
  bills : List Bill
  billItems : List BillItem
  billExtraCharges : List BillExtraCharge
deriving DecidableEq

/-- The JSON value supplied for `taxRate` in a create-bill request body.
`extendedBillSchema` preprocesses `null`, `undefined` (absent) and the empty
string to `10` before the numeric range check. -/
inductive TaxRateInput where
  | absent
  | nullValue
  | emptyString
  | num (q : ℚ)
deriving DecidableEq

/-- One line of a create-bill request (`billingItemSchema`). -/
structure BillingItemReq where
  inventoryId : String
  quantity : ℚ
  sellingPrice : ℚ
deriving DecidableEq

/-- One extra charge of a create-bill request (`extraChargeSchema`). -/
structure ExtraChargeReq where
  name : String
  amount : ℚ
deriving DecidableEq

/-- A create-bill request body as supplied by the caller, before validation.
A missing `extraCharges` field is identified with `[]` (zod `.default([])`),
a missing `status` with `none` (defaulted to `due` by the schema). -/
structure BillReq where
  clientId : String
  invoiceNumber : String
  billDate : String
  items : List BillingItemReq
  taxRate : TaxRateInput
  extraCharges : List ExtraChargeReq
  notes : Option String
  status : Option Status
deriving DecidableEq

/-- The zod preprocess step of `extendedBillSchema.taxRate`:
`val === null || val === undefined || val === '' ? 10 : val`. -/
def taxRateValue : TaxRateInput → ℚ
  | .absent => 10
  | .nullValue => 10
  | .emptyString => 10
  | .num q => q

/-- `billingItemSchema`: nonempty `inventoryId`, `quantity ≥ 0.01`,
`sellingPrice ≥ 0`. -/
def ValidItem (it : BillingItemReq) : Prop :=
  1 ≤ it.inventoryId.length ∧ (1 : ℚ)/100 ≤ it.quantity ∧ 0 ≤ it.sellingPrice

instance (it : BillingItemReq) : Decidable (ValidItem it) :=
  inferInstanceAs (Decidable (1 ≤ it.inventoryId.length ∧ (1 : ℚ)/100 ≤ it.quantity ∧ 0 ≤ it.sellingPrice))

/-- `extraChargeSchema`: nonempty `name`, `amount ≥ 0`. -/
def ValidCharge (c : ExtraChargeReq) : Prop :=
  1 ≤ c.name.length ∧ 0 ≤ c.amount

instance (c : ExtraChargeReq) : Decidable (ValidCharge c) :=
  inferInstanceAs (Decidable (1 ≤ c.name.length ∧ 0 ≤ c.amount))

/-- A request body accepted by `extendedBillSchema`, with the defaults
applied. -/
structure ValidatedBill where
  clientId : String
  invoiceNumber : String
  billDate : String
  items : List BillingItemReq
  taxRate : ℚ
  extraCharges : List ExtraChargeReq
  notes : Option String
  status : Status
deriving DecidableEq

/-- `extendedBillSchema.parse`: checks every field constraint and applies the
defaults; a failed parse raises `ZodError`, modelled as `.error ()`. -/
def parseExtendedBill (body : BillReq) : Except Unit ValidatedBill :=
  if 1 ≤ body.clientId.length ∧
      1 ≤ body.invoiceNumber.length ∧
      1 ≤ body.billDate.length ∧
      1 ≤ body.items.length ∧
      (∀ it ∈ body.items, ValidItem it) ∧
      0 ≤ taxRateValue body.taxRate ∧ taxRateValue body.taxRate ≤ 100 ∧
      (∀ c ∈ body.extraCharges, ValidCharge c) then
    .ok { clientId := body.clientId, invoiceNumber := body.invoiceNumber,
          billDate := body.billDate, items := body.items,
          taxRate := taxRateValue body.taxRate,
          extraCharges := body.extraCharges, notes := body.notes,
          status := body.status.getD .due }
  else
    .error ()

/-- The structured errors the bill routes answer with (HTTP 400/404 bodies).
`insufficientStock` carries exactly the data interpolated into the code's
message string: the available and the requested amount. -/
inductive ApiError where
  | validationError
  | inventoryNotFound (inventoryId : String)
  | insufficientStock (available requested : ℚ)
  | billNotFound
deriving DecidableEq

/-- `db.select().from(inventory).where(eq(inventory.id, lotId)).limit(1)`. -/
def findLot (inv : List Lot) (lotId : String) : Option Lot :=
  inv.find? fun lot => lot.id == lotId

/-- `db.select().from(bills).where(and(eq(bills.id, billId),
eq(bills.userId, userId))).limit(1)`. -/
def findBill (bs : List Bill) (billId userId : String) : Option Bill :=
  bs.find? fun b => b.id == billId && b.userId == userId

/-- `db.update(inventory).set({availableQuantity:
newAvail}).where(eq(inventory.id, lotId))`. -/
def updateAvail (inv : List Lot) (lotId : String) (newAvail : ℚ) : List Lot :=
  inv.map fun lot =>
    if lot.id == lotId then { lot with availableQuantity := newAvail } else lot

/-- One entry of the `itemsData` array the POST handler builds while
validating: the line data plus the inventory row fetched during validation
(`inventoryItem: inventoryItem[0]`). -/
structure PricedItem where
  inventoryId : String
  quantity : ℚ
  sellingPrice : ℚ
  total : ℚ
  lotSnapshot : Lot
deriving DecidableEq

/-- The validation loop of the POST handler: for each line in caller order,
fetch the lot (404→`inventoryNotFound`), compare `availableQuantity` with the
requested quantity (`insufficientStock` on shortfall), accumulate the
subtotal and record the line with its lot snapshot.  No write happens in
this phase. -/
def priceItems (inv : List Lot) : List BillingItemReq → Except ApiError (ℚ × List PricedItem)
  | [] => .ok (0, [])
  | item :: rest =>
    match findLot inv item.inventoryId with
    | none => .error (.inventoryNotFound item.inventoryId)
    | some lot =>
      if lot.availableQuantity < item.quantity then
        .error (.insufficientStock lot.availableQuantity item.quantity)
      else
        match priceItems inv rest with
        | .error e => .error e
        | .ok (subRest, dataRest) =>
          let itemTotal := item.quantity * item.sellingPrice
          .ok (itemTotal + subRest,
               { inventoryId := item.inventoryId, quantity := item.quantity,
                 sellingPrice := item.sellingPrice, total := itemTotal,
                 lotSnapshot := lot } :: dataRest)

/-- The inventory write-back loop of the POST handler: for each priced line,
set the lot's `availableQuantity` to the *snapshot* value fetched during
validation minus the line quantity
(`parseFloat(item.inventoryItem.availableQuantity) - parseFloat(item.quantity)`). -/
def applyReservations (inv : List Lot) : List PricedItem → List Lot
  | [] => inv
  | d :: ds =>
    applyReservations
      (updateAvail inv d.inventoryId (d.lotSnapshot.availableQuantity - d.quantity)) ds

/-- `POST /api/bills` (createBill): validate the body with
`extendedBillSchema`, run the validation/pricing loop, compute
`extraChargesTotal`, `tax = subtotal * taxRate / 100` (no rounding) and
`total`, then insert the bill header, the bill items, the extra charges, and
finally decrement the inventory.  Any failure before the inserts answers an
error with the database untouched. -/
def createBill (db : DB) (userId : String) (body : BillReq) (newBillId : String) :
    Except ApiError Bill × DB :=
  match parseExtendedBill body with
  | .error _ => (.error .validationError, db)
  | .ok v =>
    match priceItems db.inventory v.items with
    | .error e => (.error e, db)
    | .ok (subtotal, itemsData) =>
      let extraChargesTotal := (v.extraCharges.map (·.amount)).sum
      let tax := subtotal * v.taxRate / 100
      let grandTotal := subtotal + tax + extraChargesTotal
      let newBill : Bill :=
        { id := newBillId, userId := userId, clientId := v.clientId,
          billNumber := v.invoiceNumber, invoiceNumber := v.invoiceNumber,
          billDate := v.billDate, subtotal := subtotal, taxRate := v.taxRate,
          tax := tax, extraChargesTotal := extraChargesTotal,
          total := grandTotal, status := v.status, notes := v.notes }
      let newItems : List BillItem := itemsData.map fun d =>
        { billId := newBillId, inventoryId := d.inventoryId,
          quantity := d.quantity, sellingPrice := d.sellingPrice,
          total := d.total }
      let newCharges : List BillExtraCharge := v.extraCharges.map fun c =>
        { billId := newBillId, name := c.name, amount := c.amount }
      (.ok newBill,
       { inventory := applyReservations db.inventory itemsData,
         bills := db.bills ++ [newBill],
         billItems := db.billItems ++ newItems,
         billExtraCharges := db.billExtraCharges ++ newCharges })

/-- `db.select().from(billItems).where(eq(billItems.billId, billId))`. -/
def itemsOfBill (items : List BillItem) (billId : String) : List BillItem :=
  items.filter fun it => it.billId == billId

/-- The inventory restore loop of the DELETE handler: for each bill item,
re-fetch the lot; when it exists set `availableQuantity` to the *current*
value plus the item quantity (no clamping), when it does not exist skip the
item silently (`if (currentInventory.length > 0)`). -/
def releaseItems (inv : List Lot) : List BillItem → List Lot
  | [] => inv
  | it :: rest =>
    match findLot inv it.inventoryId with
    | none => releaseItems inv rest
    | some lot =>
      releaseItems (updateAvail inv it.inventoryId (lot.availableQuantity + it.quantity)) rest

/-- `DELETE /api/bills/[id]` (deleteBill): 404 when the bill is not owned by
the caller; otherwise restore inventory for every bill item (missing lots
skipped), then delete the bill items, the extra charges and the bill
header. -/
def deleteBill (db : DB) (userId billId : String) : Except ApiError Unit × DB :=
  match findBill db.bills billId userId with
  | none => (.error .billNotFound, db)
  | some _ =>
    let billItemsList := itemsOfBill db.billItems billId
    (.ok (),
     { inventory := releaseItems db.inventory billItemsList,
       bills := db.bills.filter fun b => !(b.id == billId && b.userId == userId),
       billItems := db.billItems.filter fun it => !(it.billId == billId),
       billExtraCharges := db.billExtraCharges.filter fun c => !(c.billId == billId) })

/-- The body of a `PUT /api/bills/[id]` request.  `none` models an absent
field; for the string fields the handler tests JS truthiness, so an empty
string behaves like an absent field; `taxRate` and `notes` are tested with
`!== undefined`. -/
structure PutBody where
  clientId : Option String
  billDate : Option String
  invoiceNumber : Option String
  status : Option Status
  taxRate : Option ℚ
  notes : Option (Option String)
deriving DecidableEq

/-- The `updateData` column assignments of the PUT handler applied to a bill
row.  `tax`, `total`, `subtotal` and `extraChargesTotal` are never part of
`updateData`. -/
def applyPutFields (body : PutBody) (b : Bill) : Bill :=
  { b with
    clientId := match body.clientId with
      | some s => if 1 ≤ s.length then s else b.clientId
      | none => b.clientId,
    billDate := match body.billDate with
      | some s => if 1 ≤ s.length then s else b.billDate
      | none => b.billDate,
    invoiceNumber := match body.invoiceNumber with
      | some s => if 1 ≤ s.length then s else b.invoiceNumber
      | none => b.invoiceNumber,
    status := match body.status with
      | some st => st
      | none => b.status,
    taxRate := match body.taxRate with
      | some t => t
      | none => b.taxRate,
    notes := match body.notes with
      | some n => n
      | none => b.notes }

/-- `PUT /api/bills/[id]` (updateBillHeader): 404 when the bill is not owned
by the caller, otherwise update the mapped header columns of the bill row and
return the updated row.  No other table is touched. -/
def updateBillHeader (db : DB) (userId billId : String) (body : PutBody) :
    Except ApiError Bill × DB :=
  match findBill db.bills billId userId with
  | none => (.error .billNotFound, db)
  | some b0 =>
    (.ok (applyPutFields body b0),
     { db with
        bills := db.bills.map fun b =>
          if b.id == billId && b.userId == userId then applyPutFields body b else b })

/-- The body of a `PATCH /api/bills/[id]` request: the handler spreads the
JSON body over the bill row (`.set({...body})`), so any subset of the bill
columns can be assigned. -/
structure PatchBody where
  clientId : Option String
  billNumber : Option String
  invoiceNumber : Option String
  billDate : Option String
  subtotal : Option ℚ
  taxRate : Option ℚ
  tax : Option ℚ
  extraChargesTotal : Option ℚ
  total : Option ℚ
  status : Option Status
  notes : Option (Option String)
deriving DecidableEq

/-- `{...body}` spread over a bill row: every supplied column overwrites the
stored one. -/
def applyPatchFields (body : PatchBody) (b : Bill) : Bill :=
  { b with
    clientId := body.clientId.getD b.clientId,
    billNumber := body.billNumber.getD b.billNumber,
    invoiceNumber := body.invoiceNumber.getD b.invoiceNumber,
    billDate := body.billDate.getD b.billDate,
    subtotal := body.subtotal.getD b.subtotal,
    taxRate := body.taxRate.getD b.taxRate,
    tax := body.tax.getD b.tax,
    extraChargesTotal := body.extraChargesTotal.getD b.extraChargesTotal,
    total := body.total.getD b.total,
    status := body.status.getD b.status,
    notes := body.notes.getD b.notes }

/-- `PATCH /api/bills/[id]` (partial update): 404 when the bill is not owned
by the caller, otherwise spread the body over the bill row.  Only the `bills`
table is written. -/
def patchBill (db : DB) (userId billId : String) (body : PatchBody) :
    Except ApiError Bill × DB :=
  match findBill db.bills billId userId with
  | none => (.error .billNotFound, db)
  | some b0 =>
    (.ok (applyPatchFields body b0),
     { db with
        bills := db.bills.map fun b =>
          if b.id == billId && b.userId == userId then applyPatchFields body b else b })

/-- A PATCH body that carries only a `status` field, the shape the billing
page sends for mark-paid / mark-due. -/
def statusPatch (st : Status) : PatchBody :=
  { clientId := none, billNumber := none, invoiceNumber := none,
    billDate := none, subtotal := none, taxRate := none, tax := none,
    extraChargesTotal := none, total := none, status := some st, notes := none }

/-- `updateBillStatus`: the PATCH route invoked with a status-only body. -/
def updateBillStatus (db : DB) (userId billId : String) (st : Status) :
    Except ApiError Bill × DB :=
  patchBill db userId billId (statusPatch st)

/-- Whether a route result is a success. -/
def resultOk {ε α : Type _} : Except ε α → Bool
  | .ok _ => true
  | .error _ => false

/-- Modelled from the spec: `round2`, rounding a currency value to 2 decimal
places with round-half-up («currency fields round to 2 decimal places using
round-half-up at the point of persistence»).  This definition follows the
spec's words and exists only to compare the persisted values against it; the
route code has no rounding step. -/
def round2spec (q : ℚ) : ℚ :=
  (⌊q * 100 + 1/2⌋ : ℚ) / 100

/-- The inventory-lot invariant stated by the spec:
`0 <= availableQuantity <= quantity`. -/
def LotOk (l : Lot) : Prop :=
  0 ≤ l.availableQuantity ∧ l.availableQuantity ≤ l.quantity

instance (l : Lot) : Decidable (LotOk l) :=
  inferInstanceAs (Decidable (0 ≤ l.availableQuantity ∧ l.availableQuantity ≤ l.quantity))

/-- Total quantity of the given bill items that reference lot `lotId`. -/
def releasedQuantity (items : List BillItem) (lotId : String) : ℚ :=
  ((items.filter fun it => it.inventoryId == lotId).map fun it => it.quantity).sum

/-- A sequence of PATCH status updates applied one after the other. -/
def applyStatusUpdates (db : DB) (userId : String) : List (String × Status) → DB
  | [] => db
  | (billId, st) :: rest =>
    applyStatusUpdates (updateBillStatus db userId billId st).2 userId rest

/-- `n` repetitions of `createBill` directly followed by `deleteBill` of the
same bill. -/
def createDeleteIter (db : DB) (userId : String) (body : BillReq) (newBillId : String) :
    ℕ → DB
  | 0 => db
  | n + 1 =>
    createDeleteIter ((deleteBill (createBill db userId body newBillId).2 userId newBillId).2)
      userId body newBillId n

/-! ### Concrete test fixtures used by witnesses and counterexamples -/

/-- Fixture: three lots where only the third is short on stock. -/
def c1db : DB :=
  { inventory := [{ id := "L1", quantity := 5, availableQuantity := 5 },
                  { id := "L2", quantity := 5, availableQuantity := 5 },
                  { id := "L3", quantity := 5, availableQuantity := 1 }],
    bills := [], billItems := [], billExtraCharges := [] }

/-- Fixture: a three-line request whose third line requests 5 from lot `L3`
holding 1. -/
def c1req : BillReq :=
  { clientId := "c", invoiceNumber := "N1", billDate := "D1",
    items := [{ inventoryId := "L1", quantity := 2, sellingPrice := 1 },
              { inventoryId := "L2", quantity := 2, sellingPrice := 1 },
              { inventoryId := "L3", quantity := 5, sellingPrice := 1 }],
    taxRate := .num 10, extraCharges := [], notes := none, status := none }

/-- Fixture: a single fully-stocked lot. -/
def c2db : DB :=
  { inventory := [{ id := "L1", quantity := 10, availableQuantity := 10 }],
    bills := [], billItems := [], billExtraCharges := [] }

/-- Fixture: a bill with two lines on the *same* lot. -/
def c2req : BillReq :=
  { clientId := "c", invoiceNumber := "N1", billDate := "D1",
    items := [{ inventoryId := "L1", quantity := 2, sellingPrice := 3 },
              { inventoryId := "L1", quantity := 3, sellingPrice := 4 }],
    taxRate := .num 10, extraCharges := [], notes := none, status := none }

/-- Fixture: a single-line request on a distinct lot, for the conservation
witness. -/
def c2wreq : BillReq :=
  { clientId := "c", invoiceNumber := "N1", billDate := "D1",
    items := [{ inventoryId := "L1", quantity := 2, sellingPrice := 3 }],
    taxRate := .num 10, extraCharges := [], notes := none, status := none }

/-- Fixture for the tax-rounding counterexample. -/
def c3db : DB :=
  { inventory := [{ id := "L1", quantity := 30, availableQuantity := 30 }],
    bills := [], billItems := [], billExtraCharges := [] }

/-- Fixture: one line of 1 × 25.00 at tax rate 0.25%: the exact tax 0.0625
needs rounding to reach 2 decimal places. -/
def c3req : BillReq :=
  { clientId := "c", invoiceNumber := "N1", billDate := "D1",
    items := [{ inventoryId := "L1", quantity := 1, sellingPrice := 25 }],
    taxRate := .num (1/4), extraCharges := [], notes := none, status := none }

/-- Fixture matching the spec's worked example: items [(2, 10.00), (1, 5.50)],
tax rate 10, one extra charge of 3.00. -/
def c3wdb : DB :=
  { inventory := [{ id := "LA", quantity := 5, availableQuantity := 5 },
                  { id := "LB", quantity := 5, availableQuantity := 5 }],
    bills := [], billItems := [], billExtraCharges := [] }

/-- The spec's worked example request. -/
def c3wreq : BillReq :=
  { clientId := "c", invoiceNumber := "N1", billDate := "D1",
    items := [{ inventoryId := "LA", quantity := 2, sellingPrice := 10 },
              { inventoryId := "LB", quantity := 1, sellingPrice := 11/2 }],
    taxRate := .num 10, extraCharges := [{ name := "Shipping", amount := 3 }],
    notes := none, status := none }

/-- Fixture: a stored bill with subtotal 100, tax rate 10, tax 10, extra
charges 3, total 113. -/
def c4db : DB :=
  { inventory := [],
    bills := [{ id := "B1", userId := "u", clientId := "c", billNumber := "N1",
                invoiceNumber := "N1", billDate := "D1", subtotal := 100,
                taxRate := 10, tax := 10, extraChargesTotal := 3, total := 113,
                status := .due, notes := none }],
    billItems := [], billExtraCharges := [] }

/-- Fixture: a PUT body changing only the tax rate to 20. -/
def c4pb : PutBody :=
  { clientId := none, billDate := none, invoiceNumber := none, status := none,
    taxRate := some 20, notes := none }

/-- Fixture: a bill whose first item references a lot (`ghost`) that no
longer exists and whose second references the existing lot `L1`. -/
def c5db : DB :=
  { inventory := [{ id := "L1", quantity := 10, availableQuantity := 5 }],
    bills := [{ id := "B1", userId := "u", clientId := "c", billNumber := "N1",
                invoiceNumber := "N1", billDate := "D1", subtotal := 4,
                taxRate := 0, tax := 0, extraChargesTotal := 1, total := 5,
                status := .due, notes := none }],
    billItems := [{ billId := "B1", inventoryId := "ghost", quantity := 2,
                    sellingPrice := 1, total := 2 },
                  { billId := "B1", inventoryId := "L1", quantity := 2,
                    sellingPrice := 1, total := 2 }],
    billExtraCharges := [{ billId := "B1", name := "fee", amount := 1 }] }

/-- Fixture: the pristine single-lot state for the invariant counterexample. -/
def c6db : DB :=
  { inventory := [{ id := "L1", quantity := 10, availableQuantity := 10 }],
    bills := [], billItems := [], billExtraCharges := [] }

/-- Fixture: two lines on the same lot, driving the unclamped release past
the lot's total quantity. -/
def c6req : BillReq :=
  { clientId := "c", invoiceNumber := "N1", billDate := "D1",
    items := [{ inventoryId := "L1", quantity := 2, sellingPrice := 3 },
              { inventoryId := "L1", quantity := 3, sellingPrice := 4 }],
    taxRate := .num 10, extraCharges := [], notes := none, status := none }

/-- Fixture: a fully stocked lot for the invariant witness. -/
def c6wdb : DB :=
  { inventory := [{ id := "L1", quantity := 10, availableQuantity := 10 }],
    bills := [], billItems := [], billExtraCharges := [] }

/-- Fixture: a single-line request for the invariant witness. -/
def c6wreq : BillReq :=
  { clientId := "c", invoiceNumber := "N1", billDate := "D1",
    items := [{ inventoryId := "L1", quantity := 2, sellingPrice := 3 }],
    taxRate := .num 10, extraCharges := [], notes := none, status := none }

/-- Fixture: lot `LA` with 1 available. -/
def c7dbA : DB :=
  { inventory := [{ id := "LA", quantity := 3, availableQuantity := 1 }],
    bills := [], billItems := [], billExtraCharges := [] }

/-- Fixture: lot `LB` with 1 available. -/
def c7dbB : DB :=
  { inventory := [{ id := "LB", quantity := 3, availableQuantity := 1 }],
    bills := [], billItems := [], billExtraCharges := [] }

/-- Fixture: request 5 from lot `LA`. -/
def c7reqA : BillReq :=
  { clientId := "c", invoiceNumber := "N1", billDate := "D1",
    items := [{ inventoryId := "LA", quantity := 5, sellingPrice := 2 }],
    taxRate := .num 10, extraCharges := [], notes := none, status := none }

/-- Fixture: request 5 from lot `LB`. -/
def c7reqB : BillReq :=
  { clientId := "c", invoiceNumber := "N1", billDate := "D1",
    items := [{ inventoryId := "LB", quantity := 5, sellingPrice := 2 }],
    taxRate := .num 10, extraCharges := [], notes := none, status := none }

/-- Fixture: two lots; the second has only 1 available. -/
def c7wdb : DB :=
  { inventory := [{ id := "L1", quantity := 5, availableQuantity := 5 },
                  { id := "L2", quantity := 5, availableQuantity := 1 }],
    bills := [], billItems := [], billExtraCharges := [] }

/-- Fixture: first line satisfiable, second line short. -/
def c7wreq : BillReq :=
  { clientId := "c", invoiceNumber := "N1", billDate := "D1",
    items := [{ inventoryId := "L1", quantity := 2, sellingPrice := 1 },
              { inventoryId := "L2", quantity := 5, sellingPrice := 1 }],
    taxRate := .num 10, extraCharges := [], notes := none, status := none }

/-- Fixture: an empty database. -/
def c9db : DB :=
  { inventory := [], bills := [], billItems := [], billExtraCharges := [] }

/-- Fixture: a request with an empty items list. -/
def c9req : BillReq :=
  { clientId := "c", invoiceNumber := "N1", billDate := "D1", items := [],
    taxRate := .num 10, extraCharges := [], notes := none, status := none }

/-- Fixture: a fully stocked lot for the tax-default witness. -/
def c10db : DB :=
  { inventory := [{ id := "L1", quantity := 10, availableQuantity := 10 }],
    bills := [], billItems := [], billExtraCharges := [] }

/-- Fixture: a request whose `taxRate` field is absent. -/
def c10req : BillReq :=
  { clientId := "c", invoiceNumber := "N1", billDate := "D1",
    items := [{ inventoryId := "L1", quantity := 2, sellingPrice := 3 }],
    taxRate := .absent, extraCharges := [], notes := none, status := none }

/-- `c10req` with the tax rate written out as the number 10. -/
def c10reqTen : BillReq :=
  { c10req with taxRate := .num 10 }

/-- The bill `createBill` persists for `c10req` on `c10db`. -/
def c10bill : Bill :=
  { id := "B1", userId := "u", clientId := "c", billNumber := "N1",
    invoiceNumber := "N1", billDate := "D1", subtotal := 6, taxRate := 10,
    tax := 3/5, extraChargesTotal := 0, total := 33/5, status := .due,
    notes := none }

/-- The database state after `createBill` of `c10req` on `c10db`. -/
def c10db2 : DB :=
  { inventory := [{ id := "L1", quantity := 10, availableQuantity := 8 }],
    bills := [c10bill],
    billItems := [{ billId := "B1", inventoryId := "L1", quantity := 2,
                    sellingPrice := 3, total := 6 }],
    billExtraCharges := [] }

/-! ### Basic facts about validation and the pricing loop -/

theorem parseExtendedBill_ok_shape {body : BillReq} {v : ValidatedBill}
    (h : parseExtendedBill body = .ok v) :
    v = { clientId := body.clientId, invoiceNumber := body.invoiceNumber,
          billDate := body.billDate, items := body.items,
          taxRate := taxRateValue body.taxRate,
          extraCharges := body.extraCharges, notes := body.notes,
          status := body.status.getD .due } := by
  unfold parseExtendedBill at h
  split at h
  · exact ((Except.ok.injEq _ _).mp h).symm
  · cases h

theorem parseExtendedBill_ok_valid {body : BillReq} {v : ValidatedBill}
    (h : parseExtendedBill body = .ok v) :
    1 ≤ body.items.length ∧ (∀ it ∈ body.items, ValidItem it) ∧
      0 ≤ taxRateValue body.taxRate ∧ taxRateValue body.taxRate ≤ 100 := by
  unfold parseExtendedBill at h
  split at h
  case isTrue hc => exact ⟨hc.2.2.2.1, hc.2.2.2.2.1, hc.2.2.2.2.2.1, hc.2.2.2.2.2.2.1⟩
  case isFalse => cases h

theorem priceItems_error_of_insufficient {inv : List Lot} :
    ∀ {items : List BillingItemReq},
    (∃ it ∈ items, ∃ lot, findLot inv it.inventoryId = some lot ∧
      lot.availableQuantity < it.quantity) →
    ∃ e, priceItems inv items = .error e := by
  intro items
  induction items with
  | nil => rintro ⟨it, hmem, -⟩; cases hmem
  | cons a as ih =>
    rintro ⟨it, hmem, lot, hfind, hlt⟩
    cases hf : findLot inv a.inventoryId with
    | none => exact ⟨.inventoryNotFound a.inventoryId, by simp [priceItems, hf]⟩
    | some l0 =>
      by_cases hcase : l0.availableQuantity < a.quantity
      · exact ⟨.insufficientStock l0.availableQuantity a.quantity,
          by simp [priceItems, hf, hcase]⟩
      · have hmem' : it ∈ as := by
          rcases List.mem_cons.mp hmem with rfl | h'
          · rw [hfind] at hf
            cases hf
            exact absurd hlt hcase
          · exact h'
        obtain ⟨e, he⟩ := ih ⟨it, hmem', lot, hfind, hlt⟩
        exact ⟨e, by simp [priceItems, hf, hcase, he]⟩

theorem priceItems_ok_facts {inv : List Lot} :
    ∀ {items : List BillingItemReq} {s : ℚ} {ds : List PricedItem},
    priceItems inv items = .ok (s, ds) →
    ds.map PricedItem.inventoryId = items.map BillingItemReq.inventoryId ∧
    ds.map PricedItem.quantity = items.map BillingItemReq.quantity ∧
    (∀ d ∈ ds, findLot inv d.inventoryId = some d.lotSnapshot ∧
      ¬(d.lotSnapshot.availableQuantity < d.quantity)) ∧
    s = (items.map fun it => it.quantity * it.sellingPrice).sum := by
  intro items
  induction items with
  | nil =>
    intro s ds h
    simp only [priceItems] at h
    cases h
    simp
  | cons a as ih =>
    intro s ds h
    cases hf : findLot inv a.inventoryId with
    | none => simp [priceItems, hf] at h
    | some l0 =>
      by_cases hcase : l0.availableQuantity < a.quantity
      · simp [priceItems, hf, hcase] at h
      · cases hrec : priceItems inv as with
        | error e => simp [priceItems, hf, hcase, hrec] at h
        | ok pr =>
          obtain ⟨srest, dsrest⟩ := pr
          simp only [priceItems, hf, if_neg hcase, hrec, Except.ok.injEq,
            Prod.mk.injEq] at h
          obtain ⟨hs, hds⟩ := h
          subst hs
          subst hds
          obtain ⟨hids, hqs, hsnap, hsum⟩ := ih hrec
          refine ⟨by simp [hids], by simp [hqs], ?_, by simp [hsum]⟩
          intro d hd
          rcases List.mem_cons.mp hd with rfl | hd'
          · exact ⟨hf, hcase⟩
          · exact hsnap d hd'

/-- C9 — createBill rejects empty item lists, non-positive quantities,
negative prices and out-of-range tax rates with a validation error before
touching any state. -/
theorem createBill_validation (db : DB) (userId : String) (body : BillReq)
    (newBillId : String)
    (h : body.items = [] ∨ (∃ it ∈ body.items, it.quantity ≤ 0) ∨
      (∃ it ∈ body.items, it.sellingPrice < 0) ∨
      (∃ q, body.taxRate = .num q ∧ (q < 0 ∨ 100 < q))) :
    createBill db userId body newBillId = (.error .validationError, db) := by
  have hp : parseExtendedBill body = .error () := by
    unfold parseExtendedBill
    rw [if_neg]
    rintro ⟨-, -, -, h4, h5, h6, h7, -⟩
    rcases h with hempty | ⟨it, hmem, hq⟩ | ⟨it, hmem, hp⟩ | ⟨q, hq, hout⟩
    · rw [hempty] at h4; simp at h4
    · have := (h5 it hmem).2.1
      have hpos : (0:ℚ) < 1/100 := by norm_num
      linarith
    · have := (h5 it hmem).2.2
      linarith
    · rw [hq] at h6 h7
      simp only [taxRateValue] at h6 h7
      rcases hout with hlt | hgt
      · linarith
      · linarith
  simp [createBill, hp]

/-- C9 witness — an empty items list is rejected with a validation error and
the database is untouched. -/
theorem createBill_validation_witness :
    createBill c9db "u" c9req "B1" = (.error .validationError, c9db) :=
  createBill_validation c9db "u" c9req "B1" (Or.inl rfl)

/-- C10 — a createBill request whose taxRate is absent, null or the empty
string behaves exactly like the same request with taxRate 10: it is not
rejected for the missing rate, and on success the persisted bill carries
taxRate 10 and tax computed from the 10 percent rate. -/
theorem createBill_taxRate_default (db : DB) (userId : String) (body : BillReq)
    (newBillId : String)
    (h : body.taxRate = .absent ∨ body.taxRate = .nullValue ∨
      body.taxRate = .emptyString) :
    createBill db userId body newBillId
      = createBill db userId { body with taxRate := .num 10 } newBillId ∧
    (∀ bill db2, createBill db userId body newBillId = (.ok bill, db2) →
      bill.taxRate = 10 ∧ bill.tax = bill.subtotal * 10 / 100) := by
  have htv : taxRateValue body.taxRate = 10 := by
    rcases h with h | h | h <;> rw [h] <;> rfl
  have hparse : parseExtendedBill body
      = parseExtendedBill { body with taxRate := .num 10 } := by
    unfold parseExtendedBill
    simp only [htv]
    rfl
  constructor
  · unfold createBill
    rw [hparse]
  · intro bill db2 hok
    cases hp : parseExtendedBill body with
    | error u => simp [createBill, hp] at hok
    | ok v =>
      cases hpi : priceItems db.inventory v.items with
      | error e => simp [createBill, hp, hpi] at hok
      | ok pr =>
        obtain ⟨s, ds⟩ := pr
        have hv := parseExtendedBill_ok_shape hp
        have hrate : v.taxRate = 10 := by rw [hv]; exact htv
        simp only [createBill, hp, hpi, Prod.mk.injEq, Except.ok.injEq] at hok
        obtain ⟨hbill, -⟩ := hok
        subst hbill
        simp [hrate]

/-- C10 witness — a request with `taxRate` absent runs exactly like the same
request with `taxRate` 10 and persists taxRate 10, tax 0.60 on subtotal 6. -/
theorem createBill_taxRate_default_witness :
    createBill c10db "u" c10req "B1" = createBill c10db "u" c10reqTen "B1" ∧
    c10bill.taxRate = 10 ∧ c10bill.tax = c10bill.subtotal * 10 / 100 := by
  have h := createBill_taxRate_default c10db "u" c10req "B1" (Or.inl rfl)
  have hrun : createBill c10db "u" c10req "B1" = (.ok c10bill, c10db2) := by
    norm_num [createBill, parseExtendedBill, priceItems, findLot, ValidItem,
      taxRateValue, applyReservations, updateAvail, c10db, c10req, c10bill,
      c10db2, List.find?,
      show 1 ≤ "c".length ∧ 1 ≤ "N1".length ∧ 1 ≤ "D1".length ∧ 1 ≤ "L1".length
        from by decide]
  have h2 := h.2 c10bill c10db2 hrun
  have hten : c10reqTen = { c10req with taxRate := .num 10 } := rfl
  exact ⟨by rw [hten]; exact h.1, h2.1, h2.2⟩

/-- C1 — when some line of a createBill request exceeds its lot's available
quantity the call fails and the database (inventory, bills, bill items,
extra charges) is exactly as before. -/
theorem createBill_insufficient_no_effect (db : DB) (userId : String)
    (body : BillReq) (newBillId : String)
    (h : ∃ it ∈ body.items, ∃ lot, findLot db.inventory it.inventoryId = some lot ∧
      lot.availableQuantity < it.quantity) :
    resultOk (createBill db userId body newBillId).1 = false ∧
    (createBill db userId body newBillId).2 = db := by
  cases hp : parseExtendedBill body with
  | error u => simp [createBill, hp, resultOk]
  | ok v =>
    have hv := parseExtendedBill_ok_shape hp
    have h' : ∃ it ∈ v.items, ∃ lot,
        findLot db.inventory it.inventoryId = some lot ∧
        lot.availableQuantity < it.quantity := by
      rw [hv]
      exact h
    obtain ⟨e, he⟩ := priceItems_error_of_insufficient h'
    simp [createBill, hp, he, resultOk]

/-- C1 witness — with three lines where only the third line's lot is short,
the call fails and lots 1 and 2 (and everything else) are unchanged. -/
theorem createBill_insufficient_no_effect_witness :
    resultOk (createBill c1db "u" c1req "B1").1 = false ∧
    (createBill c1db "u" c1req "B1").2 = c1db ∧
    findLot (createBill c1db "u" c1req "B1").2.inventory "L1"
      = some { id := "L1", quantity := 5, availableQuantity := 5 } ∧
    findLot (createBill c1db "u" c1req "B1").2.inventory "L2"
      = some { id := "L2", quantity := 5, availableQuantity := 5 } := by
  have h := createBill_insufficient_no_effect c1db "u" c1req "B1"
    ⟨{ inventoryId := "L3", quantity := 5, sellingPrice := 1 },
      by simp [c1req],
      { id := "L3", quantity := 5, availableQuantity := 1 },
      by simp [findLot, c1db, List.find?], by norm_num⟩
  refine ⟨h.1, h.2, ?_, ?_⟩
  · rw [h.2]; simp [findLot, c1db, List.find?]
  · rw [h.2]; simp [findLot, c1db, List.find?]

theorem priceItems_first_insufficient (inv : List Lot) :
    ∀ (pre : List BillingItemReq) (it : BillingItemReq) (post : List BillingItemReq)
      (lot : Lot),
    (∀ jt ∈ pre, ∃ l, findLot inv jt.inventoryId = some l ∧
      ¬(l.availableQuantity < jt.quantity)) →
    findLot inv it.inventoryId = some lot →
    lot.availableQuantity < it.quantity →
    priceItems inv (pre ++ it :: post)
      = .error (.insufficientStock lot.availableQuantity it.quantity) := by
  intro pre
  induction pre with
  | nil =>
    intro it post lot hpre hfind hlt
    simp [priceItems, hfind, hlt]
  | cons a as ih =>
    intro it post lot hpre hfind hlt
    obtain ⟨l, hfl, hnlt⟩ := hpre a (List.mem_cons_self a as)
    have hrest := ih it post lot (fun jt hjt => hpre jt (List.mem_cons_of_mem a hjt))
      hfind hlt
    simp [priceItems, hfl, hnlt, hrest]

/-- C7 (amended) — an insufficient line rejects the entire bill with the
first offending line in caller order determining the error, which carries the
available and requested amounts (but not the lot id); the database is
untouched. -/
theorem createBill_first_insufficient (db : DB) (userId : String) (body : BillReq)
    (newBillId : String) (pre post : List BillingItemReq) (it : BillingItemReq)
    (lot : Lot) (v : ValidatedBill)
    (hparse : parseExtendedBill body = .ok v)
    (hsplit : body.items = pre ++ it :: post)
    (hpre : ∀ jt ∈ pre, ∃ l, findLot db.inventory jt.inventoryId = some l ∧
      ¬(l.availableQuantity < jt.quantity))
    (hfind : findLot db.inventory it.inventoryId = some lot)
    (hlt : lot.availableQuantity < it.quantity) :
    createBill db userId body newBillId
      = (.error (.insufficientStock lot.availableQuantity it.quantity), db) := by
  have hv := parseExtendedBill_ok_shape hparse
  have hitems : v.items = pre ++ it :: post := by rw [hv]; exact hsplit
  have he := priceItems_first_insufficient db.inventory pre it post lot hpre hfind hlt
  rw [← hitems] at he
  simp [createBill, hparse, he]

/-- C7 witness — with a satisfiable first line and a short second line, the
call fails with the second line's available/requested amounts and no state
change. -/
theorem createBill_first_insufficient_witness :
    createBill c7wdb "u" c7wreq "B1" = (.error (.insufficientStock 1 5), c7wdb) := by
  have h := createBill_first_insufficient c7wdb "u" c7wreq "B1"
    [{ inventoryId := "L1", quantity := 2, sellingPrice := 1 }] []
    { inventoryId := "L2", quantity := 5, sellingPrice := 1 }
    { id := "L2", quantity := 5, availableQuantity := 1 }
    { clientId := "c", invoiceNumber := "N1", billDate := "D1",
      items := c7wreq.items, taxRate := 10, extraCharges := [], notes := none,
      status := .due }
    (by norm_num [parseExtendedBill, taxRateValue, ValidItem, c7wreq,
      show 1 ≤ "c".length ∧ 1 ≤ "N1".length ∧ 1 ≤ "D1".length ∧ 1 ≤ "L1".length ∧
        1 ≤ "L2".length from by decide])
    rfl
    (by
      intro jt hjt
      simp only [List.mem_singleton] at hjt
      subst hjt
      exact ⟨{ id := "L1", quantity := 5, availableQuantity := 5 },
        by simp [findLot, c7wdb, List.find?], by norm_num⟩)
    (by simp [findLot, c7wdb, List.find?])
    (by norm_num)
  exact h

/-- C7 counterexample — two situations whose offending lots have different
ids produce identical `insufficientStock` errors: the error does not carry
the offending lot id. -/
theorem insufficientStock_lacks_lotId_counterexample :
    (createBill c7dbA "u" c7reqA "B1").1 = .error (.insufficientStock 1 5) ∧
    (createBill c7dbB "u" c7reqB "B1").1 = .error (.insufficientStock 1 5) ∧
    c7dbA.inventory.map Lot.id ≠ c7dbB.inventory.map Lot.id := by
  refine ⟨?_, ?_, by decide⟩ <;>
    norm_num [createBill, parseExtendedBill, priceItems, findLot, ValidItem,
      taxRateValue, c7dbA, c7dbB, c7reqA, c7reqB, List.find?,
      show 1 ≤ "c".length ∧ 1 ≤ "N1".length ∧ 1 ≤ "D1".length ∧ 1 ≤ "LA".length ∧
        1 ≤ "LB".length from by decide]

/-- C3 (amended) — a successful createBill persists subtotal = Σ qty·price,
extraChargesTotal = Σ amounts, tax = subtotal·taxRate/100 at full precision
(no rounding), and total = subtotal + tax + extraChargesTotal. -/
theorem createBill_totals (db : DB) (userId : String) (body : BillReq)
    (newBillId : String) (bill : Bill) (db2 : DB)
    (h : createBill db userId body newBillId = (.ok bill, db2)) :
    bill.subtotal = (body.items.map fun it => it.quantity * it.sellingPrice).sum ∧
    bill.extraChargesTotal = (body.extraCharges.map fun c => c.amount).sum ∧
    bill.tax = bill.subtotal * bill.taxRate / 100 ∧
    bill.total = bill.subtotal + bill.tax + bill.extraChargesTotal := by
  cases hp : parseExtendedBill body with
  | error u => simp [createBill, hp] at h
  | ok v =>
    cases hpi : priceItems db.inventory v.items with
    | error e => simp [createBill, hp, hpi] at h
    | ok pr =>
      obtain ⟨s, ds⟩ := pr
      have hv := parseExtendedBill_ok_shape hp
      have hsum := (priceItems_ok_facts hpi).2.2.2
      simp only [createBill, hp, hpi, Prod.mk.injEq, Except.ok.injEq] at h
      obtain ⟨hbill, -⟩ := h
      subst hbill
      exact ⟨by simp [hsum, hv], by simp [hv], by simp, by simp⟩

/-- C3 witness — the spec's worked example: items [(2, 10.00), (1, 5.50)],
tax rate 10, extra charge 3.00 persist subtotal 25.50, tax 2.55,
total 31.05, satisfying the total formulas. -/
theorem createBill_totals_witness :
    (createBill c3wdb "u" c3wreq "B1").1
      = .ok { id := "B1", userId := "u", clientId := "c", billNumber := "N1",
              invoiceNumber := "N1", billDate := "D1", subtotal := 51/2,
              taxRate := 10, tax := 51/20, extraChargesTotal := 3,
              total := 621/20, status := .due, notes := none } ∧
    (51:ℚ)/20 = 51/2 * 10 / 100 ∧
    (621:ℚ)/20 = 51/2 + 51/20 + 3 := by
  have hrun : createBill c3wdb "u" c3wreq "B1"
      = (.ok { id := "B1", userId := "u", clientId := "c", billNumber := "N1",
               invoiceNumber := "N1", billDate := "D1", subtotal := 51/2,
               taxRate := 10, tax := 51/20, extraChargesTotal := 3,
               total := 621/20, status := .due, notes := none },
         { inventory := [{ id := "LA", quantity := 5, availableQuantity := 3 },
                         { id := "LB", quantity := 5, availableQuantity := 4 }],
           bills := [{ id := "B1", userId := "u", clientId := "c",
                       billNumber := "N1", invoiceNumber := "N1",
                       billDate := "D1", subtotal := 51/2, taxRate := 10,
                       tax := 51/20, extraChargesTotal := 3, total := 621/20,
                       status := .due, notes := none }],
           billItems := [{ billId := "B1", inventoryId := "LA", quantity := 2,
                           sellingPrice := 10, total := 20 },
                         { billId := "B1", inventoryId := "LB", quantity := 1,
                           sellingPrice := 11/2, total := 11/2 }],
           billExtraCharges := [{ billId := "B1", name := "Shipping",
                                  amount := 3 }] }) := by
    norm_num [createBill, parseExtendedBill, priceItems, findLot, ValidItem,
      ValidCharge, taxRateValue, applyReservations, updateAvail, c3wdb, c3wreq,
      List.find?,
      show 1 ≤ "c".length ∧ 1 ≤ "N1".length ∧ 1 ≤ "D1".length ∧ 1 ≤ "LA".length ∧
        1 ≤ "LB".length ∧ 1 ≤ "Shipping".length from by decide,
      show (("LA" == "LB") = false) ∧ (("LB" == "LA") = false) from by decide,
      show (¬("LA" = "LB")) ∧ (¬("LB" = "LA")) from by decide]
  refine ⟨by rw [hrun], ?_, ?_⟩
  · exact (createBill_totals c3wdb "u" c3wreq "B1" _ _ hrun).2.2.1
  · exact (createBill_totals c3wdb "u" c3wreq "B1" _ _ hrun).2.2.2

/-- C3 counterexample — one line 1 × 25.00 at tax rate 0.25 persists
tax 0.0625 with no rounding to 2 decimal places, where the spec's
round-half-up rounding would give 0.06. -/
theorem createBill_tax_unrounded_counterexample :
    (createBill c3db "u" c3req "B1").1
      = .ok { id := "B1", userId := "u", clientId := "c", billNumber := "N1",
              invoiceNumber := "N1", billDate := "D1", subtotal := 25,
              taxRate := 1/4, tax := 1/16, extraChargesTotal := 0,
              total := 401/16, status := .due, notes := none } ∧
    round2spec (25 * (1/4) / 100) = 3/50 ∧
    (1:ℚ)/16 ≠ 3/50 := by
  refine ⟨?_, ?_, by norm_num⟩
  · norm_num [createBill, parseExtendedBill, priceItems, findLot, ValidItem,
      taxRateValue, applyReservations, updateAvail, c3db, c3req, List.find?,
      show 1 ≤ "c".length ∧ 1 ≤ "N1".length ∧ 1 ≤ "D1".length ∧ 1 ≤ "L1".length
        from by decide]
  · rw [round2spec]
    norm_num

/-- C4 (amended) — updateBillHeader never recomputes money fields: for every
PUT body it leaves every bill's subtotal, tax, extraChargesTotal and total
unchanged, and it never touches the inventory, bill items or extra charges
tables. -/
theorem updateBillHeader_frame (db : DB) (userId billId : String) (body : PutBody) :
    (updateBillHeader db userId billId body).2.inventory = db.inventory ∧
    (updateBillHeader db userId billId body).2.billItems = db.billItems ∧
    (updateBillHeader db userId billId body).2.billExtraCharges = db.billExtraCharges ∧
    ((updateBillHeader db userId billId body).2.bills.map fun b =>
        (b.subtotal, b.tax, b.extraChargesTotal, b.total))
      = db.bills.map fun b => (b.subtotal, b.tax, b.extraChargesTotal, b.total) := by
  cases hf : findBill db.bills billId userId with
  | none => simp [updateBillHeader, hf]
  | some b0 =>
    refine ⟨by simp [updateBillHeader, hf], by simp [updateBillHeader, hf],
      by simp [updateBillHeader, hf], ?_⟩
    simp only [updateBillHeader, hf, List.map_map]
    apply List.map_congr_left
    intro b hb
    by_cases hc : (b.id == billId && b.userId == userId) = true
    · simp [Function.comp, hc, applyPutFields]
    · simp [Function.comp, hc]

/-- C4 counterexample — PUT with taxRate 20 on a bill with subtotal 100
leaves tax at 10 and total at 113: the stored tax no longer matches the new
rate (recomputation would give 20). -/
theorem updateBillHeader_no_recompute_counterexample :
    (updateBillHeader c4db "u" "B1" c4pb).2.bills
      = [{ id := "B1", userId := "u", clientId := "c", billNumber := "N1",
           invoiceNumber := "N1", billDate := "D1", subtotal := 100,
           taxRate := 20, tax := 10, extraChargesTotal := 3, total := 113,
           status := .due, notes := none }] ∧
    (10:ℚ) ≠ 100 * 20 / 100 := by
  constructor
  · norm_num [updateBillHeader, findBill, c4db, c4pb, applyPutFields,
      List.find?]
  · norm_num

/-- C8 — any sequence of status updates (PATCH with a status body) leaves
every inventory lot and every bill item exactly as it was: reservation
depends only on the bill's existence. -/
theorem updateBillStatus_frame (db : DB) (userId : String)
    (updates : List (String × Status)) :
    (applyStatusUpdates db userId updates).inventory = db.inventory ∧
    (applyStatusUpdates db userId updates).billItems = db.billItems := by
  induction updates generalizing db with
  | nil => exact ⟨rfl, rfl⟩
  | cons u rest ih =>
    obtain ⟨bid, st⟩ := u
    have hstep : ((updateBillStatus db userId bid st).2.inventory = db.inventory) ∧
        ((updateBillStatus db userId bid st).2.billItems = db.billItems) := by
      unfold updateBillStatus patchBill
      cases hf : findBill db.bills bid userId <;> simp
    have hrest := ih ((updateBillStatus db userId bid st).2)
    simp only [applyStatusUpdates]
    exact ⟨hrest.1.trans hstep.1, hrest.2.trans hstep.2⟩

/-! ### Facts about inventory updates, reservation and release -/

theorem updateAvail_cons (l : Lot) (ls : List Lot) (i : String) (v : ℚ) :
    updateAvail (l :: ls) i v
      = (if l.id == i then { l with availableQuantity := v } else l)
        :: updateAvail ls i v := rfl

theorem updateAvail_head_id (l : Lot) (i : String) (v : ℚ) :
    (if l.id == i then { l with availableQuantity := v } else l).id = l.id := by
  split <;> rfl

theorem findLot_cons (l : Lot) (ls : List Lot) (j : String) :
    findLot (l :: ls) j = if l.id == j then some l else findLot ls j := by
  simp only [findLot, List.find?_cons]
  cases hj : (l.id == j) <;> simp [hj]

theorem findLot_updateAvail_ne {i j : String} (h : j ≠ i) (inv : List Lot) (v : ℚ) :
    findLot (updateAvail inv i v) j = findLot inv j := by
  induction inv with
  | nil => rfl
  | cons l ls ih =>
    rw [updateAvail_cons, findLot_cons, findLot_cons, updateAvail_head_id]
    by_cases hj : (l.id == j) = true
    · have hli : (l.id == i) = false := by
        rw [beq_eq_false_iff_ne]
        intro he
        exact h ((beq_iff_eq.mp hj).symm.trans he)
      simp only [if_pos hj]
      rw [if_neg (by simp [hli])]
    · simp only [if_neg hj]
      exact ih

theorem findLot_updateAvail_self (inv : List Lot) (i : String) (v : ℚ) :
    findLot (updateAvail inv i v) i
      = (findLot inv i).map fun l => { l with availableQuantity := v } := by
  induction inv with
  | nil => rfl
  | cons l ls ih =>
    rw [updateAvail_cons, findLot_cons, findLot_cons, updateAvail_head_id]
    by_cases hli : (l.id == i) = true
    · simp only [if_pos hli]
      rfl
    · simp only [if_neg hli]
      exact ih

theorem updateAvail_updateAvail (inv : List Lot) (i : String) (v w : ℚ) :
    updateAvail (updateAvail inv i v) i w = updateAvail inv i w := by
  induction inv with
  | nil => rfl
  | cons l ls ih =>
    rw [updateAvail_cons, updateAvail_cons, updateAvail_cons, List.cons.injEq]
    refine ⟨?_, ih⟩
    by_cases hli : (l.id == i) = true
    · simp only [updateAvail_head_id, if_pos hli]
    · simp only [updateAvail_head_id, if_neg hli]

theorem updateAvail_comm {i j : String} (h : i ≠ j) (inv : List Lot) (v w : ℚ) :
    updateAvail (updateAvail inv i v) j w = updateAvail (updateAvail inv j w) i v := by
  induction inv with
  | nil => rfl
  | cons l ls ih =>
    rw [updateAvail_cons, updateAvail_cons, updateAvail_cons, updateAvail_cons,
      List.cons.injEq]
    refine ⟨?_, ih⟩
    by_cases hli : (l.id == i) = true
    · have hlj : (l.id == j) = false := by
        rw [beq_eq_false_iff_ne]
        intro he
        exact h ((beq_iff_eq.mp hli).symm.trans he)
      simp only [updateAvail_head_id, if_pos hli, if_neg (by simp [hlj] :
        ¬((l.id == j) = true))]
    · by_cases hlj : (l.id == j) = true
      · simp only [updateAvail_head_id, if_neg hli, if_pos hlj]
      · simp only [updateAvail_head_id, if_neg hli, if_neg hlj]

theorem updateAvail_id_not_mem (inv : List Lot) (i : String) (v : ℚ)
    (h : ∀ l ∈ inv, l.id ≠ i) : updateAvail inv i v = inv := by
  induction inv with
  | nil => rfl
  | cons l ls ih =>
    have hli : (l.id == i) = false :=
      beq_eq_false_iff_ne.mpr (h l (List.mem_cons_self l ls))
    rw [updateAvail_cons, if_neg (by simp [hli] : ¬((l.id == i) = true))]
    rw [ih fun l' hl' => h l' (List.mem_cons_of_mem l hl')]

theorem updateAvail_writeback {inv : List Lot} {i : String} {lot : Lot}
    (hnd : (inv.map Lot.id).Nodup) (h : findLot inv i = some lot) :
    updateAvail inv i lot.availableQuantity = inv := by
  induction inv with
  | nil => cases h
  | cons l ls ih =>
    have hnd' : (∀ x ∈ ls, ¬x.id = l.id) ∧ (ls.map Lot.id).Nodup := by
      simpa using hnd
    rw [findLot_cons] at h
    by_cases hli : (l.id == i) = true
    · rw [if_pos hli] at h
      have hl : l = lot := (Option.some.injEq _ _).mp h
      subst hl
      have hi : l.id = i := beq_iff_eq.mp hli
      have htail : updateAvail ls i l.availableQuantity = ls := by
        apply updateAvail_id_not_mem
        intro l' hl' heq
        exact hnd'.1 l' hl' (heq.trans hi.symm)
      rw [updateAvail_cons, if_pos hli, htail]
    · rw [if_neg hli] at h
      rw [updateAvail_cons, if_neg hli, ih hnd'.2 h]

theorem findLot_eq_of_nodup {inv : List Lot} (hnd : (inv.map Lot.id).Nodup)
    {l : Lot} (hl : l ∈ inv) : findLot inv l.id = some l := by
  induction inv with
  | nil => cases hl
  | cons a as ih =>
    have hnd' : (∀ x ∈ as, ¬x.id = a.id) ∧ (as.map Lot.id).Nodup := by
      simpa using hnd
    rcases List.mem_cons.mp hl with rfl | hl'
    · rw [findLot_cons, if_pos (by simp)]
    · have hne : (a.id == l.id) = false := by
        rw [beq_eq_false_iff_ne]
        intro he
        exact hnd'.1 l hl' he.symm
      rw [findLot_cons, if_neg (by simp [hne] : ¬((a.id == l.id) = true))]
      exact ih hnd'.2 hl'

theorem findLot_applyReservations_ne (ds : List PricedItem) :
    ∀ (inv : List Lot) (i : String), (∀ d ∈ ds, d.inventoryId ≠ i) →
    findLot (applyReservations inv ds) i = findLot inv i := by
  induction ds with
  | nil => intro inv i _; rfl
  | cons d ds ih =>
    intro inv i h
    simp only [applyReservations]
    rw [ih _ i fun e he => h e (List.mem_cons_of_mem d he)]
    exact findLot_updateAvail_ne
      (fun e => (h d (List.mem_cons_self d ds)) e.symm) inv _

theorem applyReservations_updateAvail_comm (ds : List PricedItem) :
    ∀ (inv : List Lot) (i : String) (v : ℚ), (∀ d ∈ ds, d.inventoryId ≠ i) →
    applyReservations (updateAvail inv i v) ds
      = updateAvail (applyReservations inv ds) i v := by
  induction ds with
  | nil => intro inv i v _; rfl
  | cons d ds ih =>
    intro inv i v h
    simp only [applyReservations]
    rw [updateAvail_comm (fun e => (h d (List.mem_cons_self d ds)) e.symm) inv v _]
    exact ih _ i v fun e he => h e (List.mem_cons_of_mem d he)

theorem releaseItems_applyReservations (nid : String) (ds : List PricedItem) :
    ∀ (inv : List Lot),
    (inv.map Lot.id).Nodup →
    (ds.map PricedItem.inventoryId).Nodup →
    (∀ d ∈ ds, findLot inv d.inventoryId = some d.lotSnapshot) →
    releaseItems (applyReservations inv ds)
      (ds.map fun d => ({ billId := nid, inventoryId := d.inventoryId,
                          quantity := d.quantity, sellingPrice := d.sellingPrice,
                          total := d.total } : BillItem)) = inv := by
  induction ds with
  | nil => intro inv _ _ _; rfl
  | cons d ds ih =>
    intro inv hnd hds hsnap
    have hds' : (∀ x ∈ ds, ¬x.inventoryId = d.inventoryId) ∧
        (ds.map PricedItem.inventoryId).Nodup := by simpa using hds
    have hdid : ∀ e ∈ ds, e.inventoryId ≠ d.inventoryId := hds'.1
    simp only [applyReservations, List.map_cons, releaseItems]
    rw [findLot_applyReservations_ne ds _ d.inventoryId hdid]
    rw [findLot_updateAvail_self]
    rw [hsnap d (List.mem_cons_self d ds)]
    simp only [Option.map_some']
    rw [sub_add_cancel]
    rw [← applyReservations_updateAvail_comm ds _ d.inventoryId _ hdid]
    rw [updateAvail_updateAvail]
    rw [updateAvail_writeback hnd (hsnap d (List.mem_cons_self d ds))]
    exact ih inv hnd hds'.2 fun e he => hsnap e (List.mem_cons_of_mem d he)

theorem find?_append_none {α : Type _} {p : α → Bool} {l1 : List α} (l2 : List α)
    (h : l1.find? p = none) : (l1 ++ l2).find? p = l2.find? p := by
  induction l1 with
  | nil => rfl
  | cons a as ih =>
    simp only [List.cons_append, List.find?_cons] at h ⊢
    cases hpa : p a with
    | true => simp [hpa] at h
    | false =>
      rw [hpa] at h
      exact ih h

theorem filter_eq_self_of_all {α : Type _} {p : α → Bool} :
    ∀ {l : List α}, (∀ a ∈ l, p a = true) → l.filter p = l := by
  intro l
  induction l with
  | nil => intro _; rfl
  | cons a as ih =>
    intro h
    rw [List.filter_cons, if_pos (h a (List.mem_cons_self a as))]
    rw [ih fun b hb => h b (List.mem_cons_of_mem a hb)]

theorem filter_eq_nil_of_all {α : Type _} {p : α → Bool} :
    ∀ {l : List α}, (∀ a ∈ l, p a = false) → l.filter p = [] := by
  intro l
  induction l with
  | nil => intro _; rfl
  | cons a as ih =>
    intro h
    rw [List.filter_cons,
      if_neg (by simp [h a (List.mem_cons_self a as)] : ¬(p a = true))]
    exact ih fun b hb => h b (List.mem_cons_of_mem a hb)

theorem deleteBill_found (db : DB) (userId billId : String) (b0 : Bill)
    (h : findBill db.bills billId userId = some b0) :
    deleteBill db userId billId
      = (.ok (),
         { inventory := releaseItems db.inventory (itemsOfBill db.billItems billId),
           bills := db.bills.filter fun b => !(b.id == billId && b.userId == userId),
           billItems := db.billItems.filter fun it => !(it.billId == billId),
           billExtraCharges :=
             db.billExtraCharges.filter fun c => !(c.billId == billId) }) := by
  simp [deleteBill, h]

theorem deleteBill_of_fresh (inv : List Lot) (bills : List Bill)
    (items : List BillItem) (charges : List BillExtraCharge) (nb : Bill)
    (rows : List BillItem) (newCharges : List BillExtraCharge)
    (userId newBillId : String)
    (hnb1 : nb.id = newBillId) (hnb2 : nb.userId = userId)
    (hrows : ∀ r ∈ rows, r.billId = newBillId)
    (hch : ∀ c ∈ newCharges, c.billId = newBillId)
    (hfreshB : ∀ b ∈ bills, b.id ≠ newBillId)
    (hfreshI : ∀ it ∈ items, it.billId ≠ newBillId)
    (hfreshC : ∀ c ∈ charges, c.billId ≠ newBillId) :
    (deleteBill { inventory := inv, bills := bills ++ [nb],
                  billItems := items ++ rows,
                  billExtraCharges := charges ++ newCharges }
        userId newBillId).2
      = { inventory := releaseItems inv rows, bills := bills,
          billItems := items, billExtraCharges := charges } := by
  have hfb : findBill (bills ++ [nb]) newBillId userId = some nb := by
    unfold findBill
    rw [find?_append_none _ (List.find?_eq_none.mpr fun b hb => by
      simp [beq_eq_false_iff_ne.mpr (hfreshB b hb)])]
    simp [List.find?_cons, hnb1, hnb2]
  rw [deleteBill_found _ userId newBillId nb hfb]
  have hitems2 : itemsOfBill (items ++ rows) newBillId = rows := by
    unfold itemsOfBill
    rw [List.filter_append,
      filter_eq_nil_of_all fun it hit =>
        beq_eq_false_iff_ne.mpr (hfreshI it hit),
      filter_eq_self_of_all fun r hr => beq_iff_eq.mpr (hrows r hr),
      List.nil_append]
  have hbills2 : (bills ++ [nb]).filter
      (fun b => !(b.id == newBillId && b.userId == userId)) = bills := by
    rw [List.filter_append,
      filter_eq_self_of_all fun b hb => by
        simp [beq_eq_false_iff_ne.mpr (hfreshB b hb)],
      filter_eq_nil_of_all fun b hb => by
        rcases List.mem_singleton.mp hb with rfl
        simp [hnb1, hnb2],
      List.append_nil]
  have hitems3 : (items ++ rows).filter (fun it => !(it.billId == newBillId))
      = items := by
    rw [List.filter_append,
      filter_eq_self_of_all fun it hit => by
        simp [beq_eq_false_iff_ne.mpr (hfreshI it hit)],
      filter_eq_nil_of_all fun r hr => by simp [beq_iff_eq.mpr (hrows r hr)],
      List.append_nil]
  have hch2 : (charges ++ newCharges).filter (fun c => !(c.billId == newBillId))
      = charges := by
    rw [List.filter_append,
      filter_eq_self_of_all fun c hc => by
        simp [beq_eq_false_iff_ne.mpr (hfreshC c hc)],
      filter_eq_nil_of_all fun c hc => by simp [beq_iff_eq.mpr (hch c hc)],
      List.append_nil]
  simp only [hitems2, hbills2, hitems3, hch2]

theorem create_delete_pair (db : DB) (userId : String) (body : BillReq)
    (newBillId : String)
    (hnd : (db.inventory.map Lot.id).Nodup)
    (hitems : (body.items.map BillingItemReq.inventoryId).Nodup)
    (hfreshB : ∀ b ∈ db.bills, b.id ≠ newBillId)
    (hfreshI : ∀ it ∈ db.billItems, it.billId ≠ newBillId)
    (hfreshC : ∀ c ∈ db.billExtraCharges, c.billId ≠ newBillId)
    (hok : resultOk (createBill db userId body newBillId).1 = true) :
    (deleteBill (createBill db userId body newBillId).2 userId newBillId).2 = db := by
  cases hp : parseExtendedBill body with
  | error u => simp [createBill, hp, resultOk] at hok
  | ok v =>
    cases hpi : priceItems db.inventory v.items with
    | error e => simp [createBill, hp, hpi, resultOk] at hok
    | ok pr =>
      obtain ⟨s, ds⟩ := pr
      obtain ⟨hids, hqs, hsnap, -⟩ := priceItems_ok_facts hpi
      have hv := parseExtendedBill_ok_shape hp
      have hdsnodup : (ds.map PricedItem.inventoryId).Nodup := by
        rw [hids, show v.items = body.items by rw [hv]]
        exact hitems
      simp only [createBill, hp, hpi]
      rw [deleteBill_of_fresh (applyReservations db.inventory ds) db.bills
        db.billItems db.billExtraCharges _ _ _ userId newBillId rfl rfl
        (by
          intro r hr
          obtain ⟨d, -, rfl⟩ := List.mem_map.mp hr
          rfl)
        (by
          intro c hc
          obtain ⟨c0, -, rfl⟩ := List.mem_map.mp hc
          rfl)
        hfreshB hfreshI hfreshC]
      rw [releaseItems_applyReservations newBillId ds db.inventory hnd hdsnodup
        fun d hd => (hsnap d hd).1]

/-- C2 (amended) — for a bill whose lines reference pairwise-distinct lots,
createBill directly followed by deleteBill of that bill restores the entire
database exactly (every lot's availableQuantity included), for any number of
repetitions; with two lines on the same lot the property fails. -/
theorem create_delete_conservation (db : DB) (userId : String) (body : BillReq)
    (newBillId : String) (n : ℕ)
    (hnd : (db.inventory.map Lot.id).Nodup)
    (hitems : (body.items.map BillingItemReq.inventoryId).Nodup)
    (hfreshB : ∀ b ∈ db.bills, b.id ≠ newBillId)
    (hfreshI : ∀ it ∈ db.billItems, it.billId ≠ newBillId)
    (hfreshC : ∀ c ∈ db.billExtraCharges, c.billId ≠ newBillId)
    (hok : resultOk (createBill db userId body newBillId).1 = true) :
    createDeleteIter db userId body newBillId n = db := by
  induction n with
  | zero => rfl
  | succ k ih =>
    show createDeleteIter
      ((deleteBill (createBill db userId body newBillId).2 userId newBillId).2)
      userId body newBillId k = db
    rw [create_delete_pair db userId body newBillId hnd hitems hfreshB hfreshI
      hfreshC hok]
    exact ih

/-- C2 witness — two rounds of create/delete of a one-line bill on lot `L1`
return the database to exactly its starting state. -/
theorem create_delete_conservation_witness :
    createDeleteIter c2db "u" c2wreq "B1" 2 = c2db :=
  create_delete_conservation c2db "u" c2wreq "B1" 2 (by decide) (by decide)
    (by decide) (by decide) (by decide)
    (by norm_num [createBill, parseExtendedBill, priceItems, findLot, ValidItem,
      taxRateValue, resultOk, c2db, c2wreq, List.find?,
      show 1 ≤ "c".length ∧ 1 ≤ "N1".length ∧ 1 ≤ "D1".length ∧ 1 ≤ "L1".length
        from by decide])

/-- C2 counterexample — a bill with two lines on the *same* lot: createBill
leaves availableQuantity 7 (the stale-snapshot writes lose the first line's
decrement) and deleteBill then releases both lines, ending at 12 ≠ the
original 10.  Conservation fails even for a single create/delete pair. -/
theorem conservation_duplicate_lot_counterexample :
    resultOk (createBill c2db "u" c2req "B1").1 = true ∧
    (createBill c2db "u" c2req "B1").2.inventory
      = [{ id := "L1", quantity := 10, availableQuantity := 7 }] ∧
    (deleteBill (createBill c2db "u" c2req "B1").2 "u" "B1").1 = .ok () ∧
    (deleteBill (createBill c2db "u" c2req "B1").2 "u" "B1").2.inventory
      = [{ id := "L1", quantity := 10, availableQuantity := 12 }] ∧
    c2db.inventory = [{ id := "L1", quantity := 10, availableQuantity := 10 }] := by
  refine ⟨?_, ?_, ?_, ?_, rfl⟩ <;>
    norm_num [createBill, parseExtendedBill, priceItems, findLot, ValidItem,
      taxRateValue, applyReservations, updateAvail, deleteBill, findBill,
      itemsOfBill, releaseItems, resultOk, c2db, c2req, List.find?, List.filter,
      show 1 ≤ "c".length ∧ 1 ≤ "N1".length ∧ 1 ≤ "D1".length ∧ 1 ≤ "L1".length
        from by decide]

theorem releasedQuantity_nil (lotId : String) : releasedQuantity [] lotId = 0 := rfl

theorem releasedQuantity_cons (it : BillItem) (rest : List BillItem) (lotId : String) :
    releasedQuantity (it :: rest) lotId
      = (if it.inventoryId == lotId then it.quantity else 0)
        + releasedQuantity rest lotId := by
  unfold releasedQuantity
  rw [List.filter_cons]
  by_cases hb : (it.inventoryId == lotId) = true
  · rw [if_pos hb, if_pos hb, List.map_cons, List.sum_cons]
  · rw [if_neg hb, if_neg hb, zero_add]

theorem findLot_releaseItems (items : List BillItem) :
    ∀ (inv : List Lot) (lotId : String) (lot : Lot),
    findLot inv lotId = some lot →
    findLot (releaseItems inv items) lotId
      = some { lot with availableQuantity :=
          lot.availableQuantity + releasedQuantity items lotId } := by
  induction items with
  | nil =>
    intro inv lotId lot h
    simp [releaseItems, releasedQuantity_nil, h]
  | cons it rest ih =>
    intro inv lotId lot h
    rw [releasedQuantity_cons]
    cases hf : findLot inv it.inventoryId with
    | none =>
      have hne : (it.inventoryId == lotId) = false := by
        rw [beq_eq_false_iff_ne]
        intro he
        rw [he, h] at hf
        cases hf
      simp only [releaseItems, hf]
      rw [ih inv lotId lot h]
      simp [hne]
    | some cur =>
      simp only [releaseItems, hf]
      by_cases hid : it.inventoryId = lotId
      · have hcur : cur = lot := by
          rw [hid] at hf
          rw [h] at hf
          exact ((Option.some.injEq _ _).mp hf).symm
        subst hcur
        have hstep : findLot (updateAvail inv it.inventoryId
            (cur.availableQuantity + it.quantity)) lotId
            = some { cur with availableQuantity :=
                cur.availableQuantity + it.quantity } := by
          rw [hid, findLot_updateAvail_self, h]
          rfl
        rw [ih _ lotId _ hstep]
        have hbeq : (it.inventoryId == lotId) = true := beq_iff_eq.mpr hid
        simp [hbeq, add_assoc]
      · have hbeq : (it.inventoryId == lotId) = false := beq_eq_false_iff_ne.mpr hid
        have hkeep : findLot (updateAvail inv it.inventoryId
            (cur.availableQuantity + it.quantity)) lotId = some lot := by
          rw [findLot_updateAvail_ne fun e => hid e.symm]
          exact h
        rw [ih _ lotId lot hkeep]
        simp [hbeq]

theorem findLot_releaseItems_none (items : List BillItem) :
    ∀ (inv : List Lot) (lotId : String),
    findLot inv lotId = none →
    findLot (releaseItems inv items) lotId = none := by
  induction items with
  | nil => intro inv lotId h; exact h
  | cons it rest ih =>
    intro inv lotId h
    cases hf : findLot inv it.inventoryId with
    | none =>
      simp only [releaseItems, hf]
      exact ih inv lotId h
    | some cur =>
      simp only [releaseItems, hf]
      apply ih
      by_cases hid : it.inventoryId = lotId
      · rw [hid] at hf
        rw [h] at hf
        cases hf
      · rw [findLot_updateAvail_ne fun e => hid e.symm]
        exact h

/-- C5 (amended) — deleteBill on an existing bill always succeeds, even when
a BillItem references a lot that no longer exists: that item's restoration is
silently skipped, every existing lot referenced by the bill is released by
the total quantity of its items (unclamped), no new lots appear, and the
BillItems, BillExtraCharges and Bill header are all deleted. -/
theorem deleteBill_release_and_remove (db : DB) (userId billId : String) (b0 : Bill)
    (hfound : findBill db.bills billId userId = some b0) :
    (deleteBill db userId billId).1 = .ok () ∧
    (∀ b ∈ (deleteBill db userId billId).2.bills,
      ¬(b.id = billId ∧ b.userId = userId)) ∧
    (∀ it ∈ (deleteBill db userId billId).2.billItems, it.billId ≠ billId) ∧
    (∀ c ∈ (deleteBill db userId billId).2.billExtraCharges, c.billId ≠ billId) ∧
    (∀ lotId lot, findLot db.inventory lotId = some lot →
      findLot (deleteBill db userId billId).2.inventory lotId
        = some { lot with availableQuantity := lot.availableQuantity
            + releasedQuantity (itemsOfBill db.billItems billId) lotId }) ∧
    (∀ lotId, findLot db.inventory lotId = none →
      findLot (deleteBill db userId billId).2.inventory lotId = none) := by
  rw [deleteBill_found db userId billId b0 hfound]
  refine ⟨rfl, ?_, ?_, ?_, ?_, ?_⟩
  · intro b hb hcontra
    have hmem := (List.mem_filter.mp hb).2
    simp [hcontra.1, hcontra.2] at hmem
  · intro it hit he
    have hmem := (List.mem_filter.mp hit).2
    simp [he] at hmem
  · intro c hc he
    have hmem := (List.mem_filter.mp hc).2
    simp [he] at hmem
  · intro lotId lot h
    exact findLot_releaseItems _ _ lotId lot h
  · intro lotId h
    exact findLot_releaseItems_none _ _ lotId h

/-- C5 witness — deleting the bill whose first item references the vanished
lot `ghost` succeeds and still restores the existing lot `L1` from 5 to 7. -/
theorem deleteBill_release_and_remove_witness :
    (deleteBill c5db "u" "B1").1 = .ok () ∧
    findLot (deleteBill c5db "u" "B1").2.inventory "L1"
      = some { id := "L1", quantity := 10, availableQuantity := 7 } := by
  have h := deleteBill_release_and_remove c5db "u" "B1"
    { id := "B1", userId := "u", clientId := "c", billNumber := "N1",
      invoiceNumber := "N1", billDate := "D1", subtotal := 4, taxRate := 0,
      tax := 0, extraChargesTotal := 1, total := 5, status := .due,
      notes := none }
    (by norm_num [findBill, c5db, List.find?])
  refine ⟨h.1, ?_⟩
  have h5 := h.2.2.2.2.1 "L1"
    { id := "L1", quantity := 10, availableQuantity := 5 }
    (by norm_num [findLot, c5db, List.find?])
  rw [h5]
  norm_num [releasedQuantity, itemsOfBill, c5db, List.filter,
    show (("ghost" == "L1") = false) ∧ ¬("ghost" = "L1") from by decide]

/-- C5 counterexample — with a BillItem referencing the missing lot `ghost`,
deleteBill does not roll back and does not fail: it succeeds, the bill is
gone, and lot `L1` was changed from 5 to 7. -/
theorem deleteBill_missing_lot_counterexample :
    (deleteBill c5db "u" "B1").1 = .ok () ∧
    (deleteBill c5db "u" "B1").2.bills = [] ∧
    (deleteBill c5db "u" "B1").2.inventory
      = [{ id := "L1", quantity := 10, availableQuantity := 7 }] ∧
    findLot c5db.inventory "ghost" = none := by
  refine ⟨?_, ?_, ?_, ?_⟩ <;>
    norm_num [deleteBill, findBill, itemsOfBill, releaseItems, findLot,
      updateAvail, c5db, List.find?, List.filter,
      show (("L1" == "ghost") = false) ∧ ¬("L1" = "ghost") from by decide]

theorem applyReservations_invariant (ds : List PricedItem) :
    ∀ (inv : List Lot),
    (∀ l ∈ inv, LotOk l) →
    (∀ d ∈ ds, ∀ l ∈ inv, l.id = d.inventoryId →
      0 ≤ d.lotSnapshot.availableQuantity - d.quantity ∧
      d.lotSnapshot.availableQuantity - d.quantity ≤ l.quantity) →
    ∀ l ∈ applyReservations inv ds, LotOk l := by
  induction ds with
  | nil =>
    intro inv hok _ l hl
    exact hok l hl
  | cons d rest ih =>
    intro inv hok hcond
    simp only [applyReservations]
    apply ih
    · intro l' hl'
      simp only [updateAvail] at hl'
      obtain ⟨l0, hl0, rfl⟩ := List.mem_map.mp hl'
      by_cases hb : (l0.id == d.inventoryId) = true
      · simp only [if_pos hb]
        exact hcond d (List.mem_cons_self d rest) l0 hl0 (beq_iff_eq.mp hb)
      · simp only [if_neg hb]
        exact hok l0 hl0
    · intro e he l' hl' hid'
      simp only [updateAvail] at hl'
      obtain ⟨l0, hl0, rfl⟩ := List.mem_map.mp hl'
      have hid0 : l0.id = e.inventoryId := by
        rw [← updateAvail_head_id l0 d.inventoryId
          (d.lotSnapshot.availableQuantity - d.quantity)]
        exact hid'
      have hb := hcond e (List.mem_cons_of_mem d he) l0 hl0 hid0
      have hq : (if l0.id == d.inventoryId
          then { l0 with availableQuantity :=
            d.lotSnapshot.availableQuantity - d.quantity }
          else l0).quantity = l0.quantity := by
        split <;> rfl
      rw [hq]
      exact hb

theorem releaseItems_nonneg (items : List BillItem) :
    ∀ (inv : List Lot),
    (∀ it ∈ items, 0 ≤ it.quantity) →
    (∀ l ∈ inv, 0 ≤ l.availableQuantity) →
    ∀ l ∈ releaseItems inv items, 0 ≤ l.availableQuantity := by
  induction items with
  | nil =>
    intro inv _ hok l hl
    exact hok l hl
  | cons it rest ih =>
    intro inv hq hok
    cases hf : findLot inv it.inventoryId with
    | none =>
      simp only [releaseItems, hf]
      exact ih inv (fun j hj => hq j (List.mem_cons_of_mem it hj)) hok
    | some cur =>
      simp only [releaseItems, hf]
      apply ih _ fun j hj => hq j (List.mem_cons_of_mem it hj)
      intro l' hl'
      simp only [updateAvail] at hl'
      obtain ⟨l0, hl0, rfl⟩ := List.mem_map.mp hl'
      by_cases hb : (l0.id == it.inventoryId) = true
      · simp only [if_pos hb]
        exact add_nonneg (hok cur (List.mem_of_find?_eq_some hf))
          (hq it (List.mem_cons_self it rest))
      · simp only [if_neg hb]
        exact hok l0 hl0

/-- C6 (amended) — createBill preserves 0 ≤ availableQuantity ≤ quantity on
every lot (given unique lot ids); header and status updates do not touch the
inventory at all; deleteBill's release adds the item quantity with NO
clamping: it preserves availableQuantity ≥ 0 (for nonnegative stored item
quantities) but can push availableQuantity above quantity. -/
theorem settlement_invariant (db : DB) (userId newBillId billId : String)
    (body : BillReq) (pb : PutBody) (qb : PatchBody)
    (hnd : (db.inventory.map Lot.id).Nodup)
    (hlots : ∀ l ∈ db.inventory, LotOk l)
    (hq : ∀ it ∈ db.billItems, 0 ≤ it.quantity) :
    (∀ l ∈ (createBill db userId body newBillId).2.inventory, LotOk l) ∧
    ((updateBillHeader db userId billId pb).2.inventory = db.inventory) ∧
    ((patchBill db userId billId qb).2.inventory = db.inventory) ∧
    (∀ l ∈ (deleteBill db userId billId).2.inventory, 0 ≤ l.availableQuantity) := by
  refine ⟨?_, ?_, ?_, ?_⟩
  · cases hp : parseExtendedBill body with
    | error u =>
      simp only [createBill, hp]
      exact hlots
    | ok v =>
      cases hpi : priceItems db.inventory v.items with
      | error e =>
        simp only [createBill, hp, hpi]
        exact hlots
      | ok pr =>
        obtain ⟨s, ds⟩ := pr
        obtain ⟨hids, hqs, hsnap, -⟩ := priceItems_ok_facts hpi
        have hv := parseExtendedBill_ok_shape hp
        have hval := (parseExtendedBill_ok_valid hp).2.1
        simp only [createBill, hp, hpi]
        apply applyReservations_invariant ds db.inventory hlots
        intro d hd l hl hid
        have hfind := (hsnap d hd).1
        have hnlt := (hsnap d hd).2
        have hl_eq : l = d.lotSnapshot := by
          have h1 := findLot_eq_of_nodup hnd hl
          rw [hid, hfind] at h1
          exact ((Option.some.injEq _ _).mp h1).symm
      -- quantities are at least 0.01, hence nonnegative
        have hq0 : 0 ≤ d.quantity := by
          have hmemq : d.quantity ∈ v.items.map BillingItemReq.quantity := by
            rw [← hqs]
            exact List.mem_map_of_mem PricedItem.quantity hd
          obtain ⟨it0, hit0, hq0eq⟩ := List.mem_map.mp hmemq
          have hvi : ValidItem it0 := by
            apply hval
            rw [show body.items = v.items by rw [hv]]
            exact hit0
          have := hvi.2.1
          rw [← hq0eq]
          linarith
        constructor
        · rw [sub_nonneg]
          exact not_lt.mp hnlt
        · have h2 : d.lotSnapshot.availableQuantity - d.quantity
              ≤ d.lotSnapshot.availableQuantity := sub_le_self _ hq0
          have h3 : d.lotSnapshot.availableQuantity ≤ d.lotSnapshot.quantity :=
            (hlots d.lotSnapshot (List.mem_of_find?_eq_some hfind)).2
          rw [hl_eq]
          exact h2.trans h3
  · cases hf : findBill db.bills billId userId <;> simp [updateBillHeader, hf]
  · cases hf : findBill db.bills billId userId <;> simp [patchBill, hf]
  · cases hf : findBill db.bills billId userId with
    | none =>
      simp only [deleteBill, hf]
      intro l hl
      exact (hlots l hl).1
    | some b0 =>
      rw [deleteBill_found db userId billId b0 hf]
      apply releaseItems_nonneg
      · intro it hit
        exact hq it (List.mem_filter.mp hit).1
      · intro l hl
        exact (hlots l hl).1

/-- C6 witness — on a fresh lot with quantity 10 and availability 10, a
one-line createBill of quantity 2 leaves the lot at availability 8,
satisfying 0 ≤ 8 ≤ 10. -/
theorem settlement_invariant_witness :
    LotOk { id := "L1", quantity := 10, availableQuantity := 8 } := by
  have h := settlement_invariant c6wdb "u" "B1" "B2" c6wreq
    { clientId := none, billDate := none, invoiceNumber := none,
      status := none, taxRate := none, notes := none }
    (statusPatch Status.paid)
    (by decide)
    (by norm_num [c6wdb, LotOk])
    (by simp [c6wdb])
  have hmem : ({ id := "L1", quantity := 10, availableQuantity := 8 } : Lot)
      ∈ (createBill c6wdb "u" c6wreq "B1").2.inventory := by
    norm_num [createBill, parseExtendedBill, priceItems, findLot, ValidItem,
      taxRateValue, applyReservations, updateAvail, c6wdb, c6wreq, List.find?,
      show 1 ≤ "c".length ∧ 1 ≤ "N1".length ∧ 1 ≤ "D1".length ∧ 1 ≤ "L1".length
        from by decide]
  exact h.1 _ hmem

/-- C6 counterexample — starting from a lot that satisfies the invariant
(quantity 10, availability 10) with no bills, a createBill with two lines on
that same lot followed by deleteBill of that bill leaves availableQuantity 12,
violating availableQuantity ≤ quantity: the release is not clamped. -/
theorem release_no_clamp_counterexample :
    LotOk { id := "L1", quantity := 10, availableQuantity := 10 } ∧
    c6db.inventory = [{ id := "L1", quantity := 10, availableQuantity := 10 }] ∧
    (deleteBill (createBill c6db "u" c6req "B1").2 "u" "B1").2.inventory
      = [{ id := "L1", quantity := 10, availableQuantity := 12 }] ∧
    ¬ LotOk { id := "L1", quantity := 10, availableQuantity := 12 } := by
  refine ⟨by norm_num [LotOk], rfl, ?_, by norm_num [LotOk]⟩
  norm_num [createBill, parseExtendedBill, priceItems, findLot, ValidItem,
    taxRateValue, applyReservations, updateAvail, deleteBill, findBill,
    itemsOfBill, releaseItems, c6db, c6req, List.find?, List.filter,
    show 1 ≤ "c".length ∧ 1 ≤ "N1".length ∧ 1 ≤ "D1".length ∧ 1 ≤ "L1".length
      from by decide]

end InvoiceFlow
